import Mathlib

/-!
# Verification of the Kalshi weather-market scanner

A shallow embedding, in Lean 4, of the parts of the `kalshi_weather`
Python package that the specification's claims are about, together with
theorems settling those claims.

Conventions of the embedding:
* Python `int` becomes `Int` (prices are small, no overflow is possible);
  Python `float` becomes `ℚ` (every literal appearing in the relevant
  code paths is exactly representable, and the comparisons proved here
  are robust to the difference, as argued in the doc comments).
* `None`-able values become `Option`.
* Python `dict`s built by repeated assignment become association lists
  where a later binding shadows an earlier one.
* Methods mutating an object in place become functions returning the
  updated value.
-/

namespace KalshiWeather

/-! ## Enumerations (schemas.py) -/

/-- `MappingConfidence` enum from `schemas.py`. -/
inductive MappingConfidence
  | HIGH
  | MED
  | LOW
  deriving DecidableEq, Repr

/-- The `.value` string of a `MappingConfidence` member. -/
def MappingConfidence.value : MappingConfidence → String
  | .HIGH => "HIGH"
  | .MED => "MED"
  | .LOW => "LOW"

/-- `Bucket` enum from `schemas.py`. -/
inductive Bucket
  | PRIMARY
  | TIGHT
  | NEAR_MISS
  | REJECTED
  deriving DecidableEq, Repr

/-- The `.value` string of a `Bucket` member. -/
def Bucket.value : Bucket → String
  | .PRIMARY => "PRIMARY"
  | .TIGHT => "TIGHT"
  | .NEAR_MISS => "NEAR_MISS"
  | .REJECTED => "REJECTED"

/-- `UncertaintyLevel` enum from `schemas.py`. -/
inductive UncertaintyLevel
  | LOW
  | MED
  | HIGH
  deriving DecidableEq, Repr

/-- `KnifeEdgeRisk` enum from `schemas.py`. -/
inductive KnifeEdgeRisk
  | LOW
  | MED
  | HIGH
  deriving DecidableEq, Repr

/-- Lock-in flag enum from `schemas.py` (checked in the code only through
its `.value == "LOCKING"` string comparison). -/
inductive LockInFlag
  | LOCKING
  | NOT_LOCKED
  | UNKNOWN
  deriving DecidableEq, Repr

/-- The `.value` string of a `LockInFlag` member. -/
def LockInFlag.value : LockInFlag → String
  | .LOCKING => "LOCKING"
  | .NOT_LOCKED => "NOT_LOCKED"
  | .UNKNOWN => "UNKNOWN"

/-! ## Data model (schemas.py)

Only the fields read by the functions under verification are carried;
fields that no verified code path touches (urls, free-text notes,
warnings, …) are omitted from the embedding. -/

/-- `OrderbookSnapshot` from `schemas.py`: all price fields optional,
top-3 bid levels as `(price, quantity)` pairs. -/
structure OrderbookSnapshot where
  best_yes_bid_cents : Option Int := none
  best_no_bid_cents : Option Int := none
  implied_best_no_ask_cents : Option Int := none
  implied_best_yes_ask_cents : Option Int := none
  bid_room_cents : Option Int := none
  top3_yes_bids : List (Int × Int) := []
  top3_no_bids : List (Int × Int) := []
  deriving DecidableEq, Repr

/-- The fields of `ModelOutput` (schemas.py) read by the team lead,
ranking and risk code. -/
structure ModelOutput where
  p_no : ℚ := 0
  uncertainty_level : UncertaintyLevel := .MED
  knife_edge_risk : KnifeEdgeRisk := .MED
  hours_remaining_in_meaningful_volatility_window : ℚ := 0
  lock_in_flag_if_low : Option LockInFlag := none
  p_new_lower_low_after_now : Option ℚ := none
  high_lock_in_flag : Option LockInFlag := none
  p_new_higher_high_after_now : Option ℚ := none
  deriving DecidableEq, Repr

/-- The fields of `Accounting` (schemas.py) read by the team lead and
stability code. -/
structure Accounting where
  ev_net_est_cents_at_recommended_limit : ℚ := 0
  no_trade_reason_if_any : Option String := none
  deriving DecidableEq, Repr

/-- The field of `SettlementSpec` (schemas.py) read by the team lead and
stability code. -/
structure SettlementSpec where
  mapping_confidence : MappingConfidence := .HIGH
  deriving DecidableEq, Repr

/-- `UnifiedCandidate` (schemas.py), restricted to the fields the
verified pipeline stages read or write. -/
structure UnifiedCandidate where
  market_ticker : String := ""
  orderbook_snapshot : OrderbookSnapshot := {}
  settlement_spec : Option SettlementSpec := none
  model : Option ModelOutput := none
  fees_ev : Option Accounting := none
  bucket : Bucket := .REJECTED
  bucket_reason : String := ""
  rank : Option Nat := none
  deriving DecidableEq, Repr

/-! ## Configuration (config.py) -/

/-- `PriceWindowConfig` defaults from `config.py`. -/
structure PriceWindowConfig where
  primary_low : Int := 90
  primary_high : Int := 93
  scan_low : Int := 88
  scan_high : Int := 95
  near_miss_low_band : Int × Int := (88, 89)
  near_miss_high_band : Int × Int := (94, 95)
  deriving DecidableEq, Repr

/-- `SpreadConfig` defaults from `config.py`. -/
structure SpreadConfig where
  max_spread_cents : Int := 6
  min_bid_room_primary : Int := 2
  deriving DecidableEq, Repr

/-- `StabilityConfig` defaults from `config.py`. -/
structure StabilityConfig where
  min_price_move_cents : Int := 2
  deriving DecidableEq, Repr

/-- `FeeConfig` from `config.py`. The float literals `0.07` and `0.0175`
are carried as the rationals they denote; the fee ceilings proved below
are at distance ≥ 1/10000 from any integer, so the ≈1e-18 difference
between the float and the rational can never change a `ceil`. -/
structure FeeConfig where
  taker_rate : ℚ := 7/100
  maker_rate : ℚ := 175/10000
  min_contract_price_cents : Int := 1
  max_contract_price_cents : Int := 99
  deriving DecidableEq, Repr

/-- `PickLimitsConfig` defaults from `config.py`. -/
structure PickLimitsConfig where
  max_primary_picks : Nat := 10
  deriving DecidableEq, Repr

/-- `Config` from `config.py`, restricted to the sub-configs the verified
code reads. -/
structure Config where
  price_window : PriceWindowConfig := {}
  spread : SpreadConfig := {}
  stability : StabilityConfig := {}
  fees : FeeConfig := {}
  picks : PickLimitsConfig := {}
  deriving DecidableEq, Repr

/-- The `DEFAULT_CONFIG` singleton from `config.py`. -/
def DEFAULT_CONFIG : Config := {}

/-! ## Bucket classifier (team_lead.py, `classify_bucket`) -/

/-- `classify_bucket` from `team_lead.py`: PRIMARY / TIGHT / NEAR-MISS /
REJECTED with the reason strings the code formats.  The source's missing
`bid_room_cents` is substituted by 0 (`ob.bid_room_cents if ... else 0`). -/
def classify_bucket (candidate : UnifiedCandidate) (config : Config) :
    Bucket × String :=
  let ob := candidate.orderbook_snapshot
  let pw := config.price_window
  match ob.implied_best_no_ask_cents with
  | none => (.REJECTED, "No implied NO ask price")
  | some ask =>
    let room := ob.bid_room_cents.getD 0
    let min_room := config.spread.min_bid_room_primary
    let plo := pw.primary_low
    let phi := pw.primary_high
    if plo ≤ ask ∧ ask ≤ phi then
      let window := s!"[{plo},{phi}]"
      if room ≥ min_room then
        (.PRIMARY, s!"ask={ask}c in {window}, room={room}c >= {min_room}")
      else
        (.TIGHT, s!"ask={ask}c in {window}, room={room}c < {min_room}")
    else
      let lo_lo := pw.near_miss_low_band.1
      let lo_hi := pw.near_miss_low_band.2
      let hi_lo := pw.near_miss_high_band.1
      let hi_hi := pw.near_miss_high_band.2
      if lo_lo ≤ ask ∧ ask ≤ lo_hi then
        (.NEAR_MISS, s!"ask={ask}c in near-miss low band [{lo_lo},{lo_hi}]")
      else if hi_lo ≤ ask ∧ ask ≤ hi_hi then
        (.NEAR_MISS, s!"ask={ask}c in near-miss high band [{hi_lo},{hi_hi}]")
      else
        (.REJECTED, s!"ask={ask}c outside scan window")

/-- C1: with the default configuration, for any candidate whose implied
NO ask `a` and bid-room `r` are present, the bucket is PRIMARY iff
`90 ≤ a ≤ 93 ∧ r ≥ 2`, TIGHT iff `90 ≤ a ≤ 93 ∧ r < 2`, NEAR_MISS iff
`a ∈ [88,89] ∪ [94,95]`, and REJECTED otherwise; the boundary asks
88, 89, 90, 93, 94, 95 therefore land in the stated buckets. -/
theorem classify_bucket_window_spec (c : UnifiedCandidate) (a r : Int)
    (ha : c.orderbook_snapshot.implied_best_no_ask_cents = some a)
    (hr : c.orderbook_snapshot.bid_room_cents = some r) :
    ((classify_bucket c DEFAULT_CONFIG).1 = .PRIMARY ↔
      (90 ≤ a ∧ a ≤ 93 ∧ 2 ≤ r)) ∧
    ((classify_bucket c DEFAULT_CONFIG).1 = .TIGHT ↔
      (90 ≤ a ∧ a ≤ 93 ∧ r < 2)) ∧
    ((classify_bucket c DEFAULT_CONFIG).1 = .NEAR_MISS ↔
      ((88 ≤ a ∧ a ≤ 89) ∨ (94 ≤ a ∧ a ≤ 95))) ∧
    ((classify_bucket c DEFAULT_CONFIG).1 = .REJECTED ↔
      ¬ ((88 ≤ a ∧ a ≤ 89) ∨ (90 ≤ a ∧ a ≤ 93) ∨ (94 ≤ a ∧ a ≤ 95))) := by
  simp only [classify_bucket, ha, hr, Option.getD_some, DEFAULT_CONFIG]
  split_ifs with h1 h2 h3 h4 <;>
    simp only [Prod.fst] <;>
    refine ⟨?_, ?_, ?_, ?_⟩ <;>
    constructor <;>
    intro hx <;>
    first
      | rfl
      | omega
      | (exfalso; revert hx; simp_all; omega)
      | simp_all

/-- Witness for C1 at a concrete candidate: ask 92, room 3 is PRIMARY. -/
theorem classify_bucket_window_spec_witness :
    (classify_bucket
      { orderbook_snapshot :=
          { implied_best_no_ask_cents := some 92, bid_room_cents := some 3 } }
      DEFAULT_CONFIG).1 = .PRIMARY :=
  (classify_bucket_window_spec
    { orderbook_snapshot :=
        { implied_best_no_ask_cents := some 92, bid_room_cents := some 3 } }
    92 3 rfl rfl).1.mpr (by decide)

/-! ## Pick count enforcement (team_lead.py, `enforce_pick_counts`) -/

/-- The in-place demotion performed on one excess PRIMARY candidate by
`enforce_pick_counts` (`c.bucket = Bucket.TIGHT; c.bucket_reason += ...`). -/
def demote_to_tight (c : UnifiedCandidate) : UnifiedCandidate :=
  { c with
    bucket := .TIGHT,
    bucket_reason := c.bucket_reason ++ " (demoted: exceeded pick limit)" }

/-- `enforce_pick_counts` from `team_lead.py`: cap PRIMARY at
`max_primary_picks`, demote the overflow to TIGHT and prepend it. -/
def enforce_pick_counts
    (primary tight near_miss : List UnifiedCandidate) (config : Config) :
    List UnifiedCandidate × List UnifiedCandidate × List UnifiedCandidate :=
  let max_picks := config.picks.max_primary_picks
  if primary.length > max_picks then
    let demoted := (primary.drop max_picks).map demote_to_tight
    (primary.take max_picks, demoted ++ tight, near_miss)
  else
    (primary, tight, near_miss)

/-- C5: with the default pick limit of 10, `enforce_pick_counts` keeps
exactly the first 10 (best-ranked) PRIMARY candidates when more than 10
arrive, turns every overflow candidate into a TIGHT candidate placed
before all previously-TIGHT candidates with its rank untouched and its
bucket-reason extended by the demotion annotation, leaves NEAR_MISS
alone, returns all three lists unchanged when PRIMARY has at most 10
candidates, and demotes exactly one candidate when PRIMARY has 11. -/
theorem enforce_pick_counts_spec
    (primary tight near_miss : List UnifiedCandidate) :
    (primary.length ≤ 10 →
      enforce_pick_counts primary tight near_miss DEFAULT_CONFIG =
        (primary, tight, near_miss)) ∧
    (10 < primary.length →
      (enforce_pick_counts primary tight near_miss DEFAULT_CONFIG).1 =
          primary.take 10 ∧
      (∃ demoted,
        (enforce_pick_counts primary tight near_miss DEFAULT_CONFIG).2.1 =
            demoted ++ tight ∧
        List.Forall₂
          (fun c d =>
            d.bucket = Bucket.TIGHT ∧
            d.bucket_reason =
              c.bucket_reason ++ " (demoted: exceeded pick limit)" ∧
            d.rank = c.rank ∧
            d.market_ticker = c.market_ticker)
          (primary.drop 10) demoted) ∧
      (enforce_pick_counts primary tight near_miss DEFAULT_CONFIG).2.2 =
          near_miss) ∧
    (primary.length = 11 →
      ((enforce_pick_counts primary tight near_miss DEFAULT_CONFIG).1).length
          = 10 ∧
      ((enforce_pick_counts primary tight near_miss DEFAULT_CONFIG).2.1).length
          = tight.length + 1) := by
  refine ⟨fun hle => ?_, fun hgt => ⟨?_, ⟨(primary.drop 10).map demote_to_tight,
    ?_, ?_⟩, ?_⟩, fun h11 => ⟨?_, ?_⟩⟩
  · simp [enforce_pick_counts, DEFAULT_CONFIG, Nat.not_lt.mpr hle]
  · simp [enforce_pick_counts, DEFAULT_CONFIG, hgt]
  · simp [enforce_pick_counts, DEFAULT_CONFIG, hgt]
  · exact List.forall₂_map_right_iff.mpr
      (List.forall₂_same.mpr fun c _ => ⟨rfl, rfl, rfl, rfl⟩)
  · simp [enforce_pick_counts, DEFAULT_CONFIG, hgt]
  · simp [enforce_pick_counts, DEFAULT_CONFIG, h11]
  · simp [enforce_pick_counts, DEFAULT_CONFIG, h11]
    omega

/-- Witness for C5: 11 identical default candidates; the cap keeps 10
and sends exactly one demoted candidate to the front of TIGHT. -/
theorem enforce_pick_counts_spec_witness :
    ((enforce_pick_counts (List.replicate 11 ({} : UnifiedCandidate)) [] []
        DEFAULT_CONFIG).1).length = 10 ∧
    ((enforce_pick_counts (List.replicate 11 ({} : UnifiedCandidate)) [] []
        DEFAULT_CONFIG).2.1).length = 1 :=
  (enforce_pick_counts_spec (List.replicate 11 {}) [] []).2.2 (by simp)

/-! ## Stability suppression (output.py / orchestrator.py) -/

/-- `should_suppress_change` from `output.py`: a bucket change is
suppressed unless the ask moved by at least `min_price_move_cents`, the
EV sign (strictly-positive test) flipped, or the mapping confidence
changed. -/
def should_suppress_change (curr prev : UnifiedCandidate) (config : Config) :
    Bool :=
  let min_move := config.stability.min_price_move_cents
  let price_moved : Bool :=
    match curr.orderbook_snapshot.implied_best_no_ask_cents,
        prev.orderbook_snapshot.implied_best_no_ask_cents with
    | some curr_ask, some prev_ask => decide (min_move ≤ |curr_ask - prev_ask|)
    | _, _ => false
  if price_moved then false
  else
    let ev_flip : Bool :=
      match curr.fees_ev, prev.fees_ev with
      | some curr_ev, some prev_ev =>
        (decide (0 < curr_ev.ev_net_est_cents_at_recommended_limit)) !=
          (decide (0 < prev_ev.ev_net_est_cents_at_recommended_limit))
      | _, _ => false
    if ev_flip then false
    else if (curr.settlement_spec.map SettlementSpec.mapping_confidence) ≠
        (prev.settlement_spec.map SettlementSpec.mapping_confidence) then
      false
    else true

/-- `DailySlate` (schemas.py), restricted to its four candidate lists. -/
structure DailySlate where
  picks_primary : List UnifiedCandidate := []
  picks_tight : List UnifiedCandidate := []
  picks_near_miss : List UnifiedCandidate := []
  rejected : List UnifiedCandidate := []
  deriving Repr

/-- The `prior_map` dict built by `apply_stability_rules`
(orchestrator.py): keyed by market ticker over all four lists, a later
insertion shadowing an earlier one — hence lookup on the reversed
concatenation. -/
def prior_lookup (slate : DailySlate) (ticker : String) :
    Option UnifiedCandidate :=
  ((slate.picks_primary ++ slate.picks_tight ++ slate.picks_near_miss ++
      slate.rejected).reverse).find? (fun c => c.market_ticker == ticker)

/-- The bucket-reason text written by `apply_stability_rules` on
suppression. -/
def stability_reason (prev_bucket : Bucket) : String :=
  "Stability: kept " ++ prev_bucket.value ++
    " (change suppressed — thresholds not met)"

/-- `apply_stability_rules` from `orchestrator.py`: with a prior slate,
any candidate whose bucket changed but whose change does not meet the
stability thresholds is reverted to the prior bucket with the stability
reason text. -/
def apply_stability_rules (current_candidates : List UnifiedCandidate)
    (prior_slate : Option DailySlate) (config : Config) :
    List UnifiedCandidate :=
  match prior_slate with
  | none => current_candidates
  | some slate =>
    current_candidates.map fun curr =>
      match prior_lookup slate curr.market_ticker with
      | none => curr
      | some prev =>
        if curr.bucket ≠ prev.bucket then
          if should_suppress_change curr prev config then
            { curr with
              bucket := prev.bucket,
              bucket_reason := stability_reason prev.bucket }
          else curr
        else curr

/-- C3: for a candidate found in the prior slate whose bucket changed,
with asks, EVs and mapping confidences present on both sides, the
stability stage reverts the bucket to the prior bucket and rewrites the
bucket-reason to the stability text iff neither the ask moved by ≥ 2
cents, nor the EV sign flipped, nor the mapping confidence changed. -/
theorem apply_stability_rules_spec
    (curr prev : UnifiedCandidate) (slate : DailySlate)
    (curr_ask prev_ask : Int) (curr_fees prev_fees : Accounting)
    (curr_spec prev_spec : SettlementSpec)
    (hfind : prior_lookup slate curr.market_ticker = some prev)
    (hb : curr.bucket ≠ prev.bucket)
    (hca : curr.orderbook_snapshot.implied_best_no_ask_cents = some curr_ask)
    (hpa : prev.orderbook_snapshot.implied_best_no_ask_cents = some prev_ask)
    (hcf : curr.fees_ev = some curr_fees)
    (hpf : prev.fees_ev = some prev_fees)
    (hcs : curr.settlement_spec = some curr_spec)
    (hps : prev.settlement_spec = some prev_spec) :
    (apply_stability_rules [curr] (some slate) DEFAULT_CONFIG =
        [{ curr with
            bucket := prev.bucket,
            bucket_reason := stability_reason prev.bucket }] ↔
      ¬ (2 ≤ |curr_ask - prev_ask| ∨
          ((0 < curr_fees.ev_net_est_cents_at_recommended_limit) ↔
              ¬ 0 < prev_fees.ev_net_est_cents_at_recommended_limit) ∨
          curr_spec.mapping_confidence ≠ prev_spec.mapping_confidence)) ∧
    (apply_stability_rules [curr] (some slate) DEFAULT_CONFIG = [curr] ↔
      (2 ≤ |curr_ask - prev_ask| ∨
        ((0 < curr_fees.ev_net_est_cents_at_recommended_limit) ↔
            ¬ 0 < prev_fees.ev_net_est_cents_at_recommended_limit) ∨
        curr_spec.mapping_confidence ≠ prev_spec.mapping_confidence)) := by
  have hsup : should_suppress_change curr prev DEFAULT_CONFIG = true ↔
      ¬ (2 ≤ |curr_ask - prev_ask| ∨
        ((0 < curr_fees.ev_net_est_cents_at_recommended_limit) ↔
            ¬ 0 < prev_fees.ev_net_est_cents_at_recommended_limit) ∨
        curr_spec.mapping_confidence ≠ prev_spec.mapping_confidence) := by
    simp only [should_suppress_change, hca, hpa, hcf, hpf, hcs, hps,
      DEFAULT_CONFIG, Option.map_some]
    by_cases h1 : (2:Int) ≤ |curr_ask - prev_ask| <;>
      by_cases hce : 0 < curr_fees.ev_net_est_cents_at_recommended_limit <;>
      by_cases hpe : 0 < prev_fees.ev_net_est_cents_at_recommended_limit <;>
      by_cases h3 : curr_spec.mapping_confidence =
          prev_spec.mapping_confidence <;>
      simp [h1, hce, hpe, h3]
  have hchanged :
      ({ curr with
          bucket := prev.bucket,
          bucket_reason := stability_reason prev.bucket } :
        UnifiedCandidate) ≠ curr := by
    intro h
    exact hb (by rw [← h])
  have hr : apply_stability_rules [curr] (some slate) DEFAULT_CONFIG =
      if should_suppress_change curr prev DEFAULT_CONFIG then
        [{ curr with
            bucket := prev.bucket,
            bucket_reason := stability_reason prev.bucket }]
      else [curr] := by
    simp only [apply_stability_rules, List.map_cons, List.map_nil, hfind,
      ne_eq, hb, not_false_eq_true, if_true]
    split <;> rfl
  rcases hx : should_suppress_change curr prev DEFAULT_CONFIG with _ | _
  · rw [hx] at hr
    simp only [Bool.false_eq_true, if_false] at hr
    have hd : (2 ≤ |curr_ask - prev_ask| ∨
        ((0 < curr_fees.ev_net_est_cents_at_recommended_limit) ↔
            ¬ 0 < prev_fees.ev_net_est_cents_at_recommended_limit) ∨
        curr_spec.mapping_confidence ≠ prev_spec.mapping_confidence) := by
      by_contra h
      exact absurd (hsup.mpr h) (by simp [hx])
    refine ⟨⟨fun h => absurd hd (by
        rw [hr] at h
        exact absurd ((List.cons_eq_cons.mp h).1.symm) hchanged),
      fun h => absurd hd h⟩, ⟨fun _ => hd, fun _ => hr⟩⟩
  · rw [hx] at hr
    simp only [if_true] at hr
    have hnd := hsup.mp hx
    refine ⟨⟨fun _ => hnd, fun _ => hr⟩,
      ⟨fun h => ?_, fun h => absurd h hnd⟩⟩
    rw [hr] at h
    exact absurd (List.cons_eq_cons.mp h).1 hchanged

/-- Witness for C3: ask moved by 1 < 2, EV kept its sign, confidence
unchanged — the TIGHT re-bucketing is reverted to the prior PRIMARY. -/
theorem apply_stability_rules_spec_witness :
    apply_stability_rules
      [{ market_ticker := "M",
         orderbook_snapshot := { implied_best_no_ask_cents := some 93 },
         settlement_spec := some {},
         fees_ev := some { ev_net_est_cents_at_recommended_limit := 4 },
         bucket := .TIGHT }]
      (some { picks_primary :=
        [{ market_ticker := "M",
           orderbook_snapshot := { implied_best_no_ask_cents := some 92 },
           settlement_spec := some {},
           fees_ev := some { ev_net_est_cents_at_recommended_limit := 5 },
           bucket := .PRIMARY }] })
      DEFAULT_CONFIG =
    [{ market_ticker := "M",
       orderbook_snapshot := { implied_best_no_ask_cents := some 93 },
       settlement_spec := some {},
       fees_ev := some { ev_net_est_cents_at_recommended_limit := 4 },
       bucket := .PRIMARY,
       bucket_reason := stability_reason .PRIMARY }] :=
  (apply_stability_rules_spec
    { market_ticker := "M",
      orderbook_snapshot := { implied_best_no_ask_cents := some 93 },
      settlement_spec := some {},
      fees_ev := some { ev_net_est_cents_at_recommended_limit := 4 },
      bucket := .TIGHT }
    { market_ticker := "M",
      orderbook_snapshot := { implied_best_no_ask_cents := some 92 },
      settlement_spec := some {},
      fees_ev := some { ev_net_est_cents_at_recommended_limit := 5 },
      bucket := .PRIMARY }
    { picks_primary :=
      [{ market_ticker := "M",
         orderbook_snapshot := { implied_best_no_ask_cents := some 92 },
         settlement_spec := some {},
         fees_ev := some { ev_net_est_cents_at_recommended_limit := 5 },
         bucket := .PRIMARY }] }
    93 92 { ev_net_est_cents_at_recommended_limit := 4 }
    { ev_net_est_cents_at_recommended_limit := 5 } {} {}
    (by simp [prior_lookup]) (by simp) rfl rfl rfl rfl rfl rfl).1.mpr
    (by
      intro hor
      rcases hor with h | h | h
      · norm_num at h
      · rw [iff_iff_implies_and_implies] at h
        have h4 : (0:ℚ) < 4 := by norm_num
        have h5 : (0:ℚ) < 5 := by norm_num
        exact (h.1 h4) h5
      · exact h rfl)

/-! ## Venue-client path allowlist (kalshi_client.py) -/

/-- `_ALLOWED_PATH_PREFIXES` from `kalshi_client.py`: the only path
stems the read-only client may call. -/
def allowed_path_stems : List String :=
  ["/trade-api/v2/events", "/trade-api/v2/markets", "/trade-api/v2/series"]

/-- `path.split("?")[0]` as used by `KalshiClient._get`: the part of
the path before the first `?` (the whole path when there is none),
computed over the character list. -/
def strip_query (path : String) : String :=
  String.mk (path.data.takeWhile (fun c => c != '?'))

/-- Python's `str.startswith`, over the character list. -/
def str_starts_with (s stem : String) : Bool :=
  stem.data.isPrefixOf s.data

/-- The allowlist gate at the top of `KalshiClient._get`
(kalshi_client.py): raise `PermissionError` before any header signing or
network I/O when the query-stripped path does not start with an allowed
stem; otherwise proceed (modelled as `Except.ok`). -/
def kalshi_get_gate (path : String) : Except String Unit :=
  let path_no_query := strip_query path
  if allowed_path_stems.any (fun stem => str_starts_with path_no_query stem)
  then
    Except.ok ()
  else
    Except.error ("Path not allowed: " ++ path_no_query)

/-- C8: `_get` fails with the `PermissionError` (and performs no request)
exactly when the query-stripped path starts with none of the three
read-only stems; portfolio and order paths are rejected while event,
market and series paths (queries included) pass the gate. -/
theorem kalshi_get_gate_spec :
    (∀ path : String,
      (kalshi_get_gate path =
          Except.error ("Path not allowed: " ++ strip_query path) ↔
        ¬ (str_starts_with (strip_query path) "/trade-api/v2/events" = true ∨
           str_starts_with (strip_query path) "/trade-api/v2/markets" = true ∨
           str_starts_with (strip_query path) "/trade-api/v2/series" =
             true)) ∧
      (kalshi_get_gate path = Except.ok () ↔
        (str_starts_with (strip_query path) "/trade-api/v2/events" = true ∨
         str_starts_with (strip_query path) "/trade-api/v2/markets" = true ∨
         str_starts_with (strip_query path) "/trade-api/v2/series" =
           true))) ∧
    kalshi_get_gate "/trade-api/v2/portfolio/orders" =
      Except.error "Path not allowed: /trade-api/v2/portfolio/orders" ∧
    kalshi_get_gate "/trade-api/v2/positions" =
      Except.error "Path not allowed: /trade-api/v2/positions" ∧
    kalshi_get_gate "/trade-api/v2/markets/KXHIGHNY-26JAN01/orderbook?depth=10"
      = Except.ok () ∧
    kalshi_get_gate "/trade-api/v2/events?status=open" = Except.ok () := by
  refine ⟨fun path => ?_, rfl, rfl, rfl, rfl⟩
  have hany : (allowed_path_stems.any
      (fun stem => str_starts_with (strip_query path) stem) = true) ↔
      (str_starts_with (strip_query path) "/trade-api/v2/events" = true ∨
       str_starts_with (strip_query path) "/trade-api/v2/markets" = true ∨
       str_starts_with (strip_query path) "/trade-api/v2/series" = true) := by
    simp [allowed_path_stems]
  by_cases hc :
      (str_starts_with (strip_query path) "/trade-api/v2/events" = true ∨
       str_starts_with (strip_query path) "/trade-api/v2/markets" = true ∨
       str_starts_with (strip_query path) "/trade-api/v2/series" = true)
  · have hg : kalshi_get_gate path = Except.ok () := by
      simp only [kalshi_get_gate]
      rw [if_pos (hany.mpr hc)]
    rw [hg]
    exact ⟨iff_of_false (by simp) (not_not_intro hc), iff_of_true rfl hc⟩
  · have hg : kalshi_get_gate path =
        Except.error ("Path not allowed: " ++ strip_query path) := by
      simp only [kalshi_get_gate]
      rw [if_neg (fun h => hc (hany.mp h))]
    rw [hg]
    exact ⟨iff_of_true rfl hc, iff_of_false (by simp) hc⟩

/-! ## Spike monitor (spike_monitor.py)

Timestamps come from Python's monotonic float clock and are embedded as
rationals; prices are integer cents. -/

/-- `PriceSnapshot` from `spike_monitor.py`. -/
structure PriceSnapshot where
  price_cents : Int
  timestamp : ℚ
  deriving DecidableEq, Repr

/-- `SpikeConfig` defaults from `spike_config.py`. -/
structure SpikeConfig where
  spike_threshold_cents : Int := 15
  window_seconds : Int := 360
  poll_interval_seconds : Int := 30
  burst_count : Nat := 5
  burst_interval_seconds : Int := 60
  cooldown_seconds : Int := 600
  deriving DecidableEq, Repr

/-- `PriceHistory` from `spike_monitor.py`: a dict from ticker to a
time-ordered deque of snapshots, embedded as an association list (dict
keys are unique). -/
structure PriceHistory where
  max_age_seconds : Int := 600
  data : List (String × List PriceSnapshot) := []
  deriving DecidableEq, Repr

/-- `SpikeEvent` from `spike_monitor.py`. -/
structure SpikeEvent where
  ticker : String
  old_price : Int
  new_price : Int
  delta : Int
  seconds_elapsed : ℚ
  deriving DecidableEq, Repr

/-- Lookup in the `cooldowns` dict (a later assignment shadows an
earlier one, hence the reversed search). -/
def cooldown_lookup (cooldowns : List (String × ℚ)) (ticker : String) :
    Option ℚ :=
  (cooldowns.reverse.find? (fun p => p.1 == ticker)).map (·.2)

/-- The body of `detect_spike`'s per-ticker loop: skip a ticker on
active cooldown or with fewer than 2 snapshots; otherwise pair the first
snapshot inside the lookback window with the latest snapshot and emit an
event when the delta reaches the threshold. -/
def ticker_candidate (config : SpikeConfig) (now : ℚ)
    (cooldowns : List (String × ℚ)) (ticker : String)
    (snapshots : List PriceSnapshot) : Option SpikeEvent :=
  let blocked : Bool :=
    match cooldown_lookup cooldowns ticker with
    | some t0 => decide (now - t0 < (config.cooldown_seconds : ℚ))
    | none => false
  if blocked then none
  else if snapshots.length < 2 then none
  else
    let window_start := now - (config.window_seconds : ℚ)
    match snapshots.find? (fun s => decide (window_start ≤ s.timestamp)) with
    | none => none
    | some oldest_in_window =>
      match snapshots.getLast? with
      | none => none
      | some current =>
        let delta := current.price_cents - oldest_in_window.price_cents
        if config.spike_threshold_cents ≤ delta then
          some
            { ticker := ticker,
              old_price := oldest_in_window.price_cents,
              new_price := current.price_cents,
              delta := delta,
              seconds_elapsed :=
                current.timestamp - oldest_in_window.timestamp }
        else none

/-- `detect_spike` from `spike_monitor.py`: fold the per-ticker loop,
keeping the running best and replacing it only on a strictly larger
delta. -/
def detect_spike (history : PriceHistory) (config : SpikeConfig) (now : ℚ)
    (cooldowns : List (String × ℚ)) : Option SpikeEvent :=
  history.data.foldl
    (fun best entry =>
      match ticker_candidate config now cooldowns entry.1 entry.2 with
      | none => best
      | some event =>
        match best with
        | none => some event
        | some b => if b.delta < event.delta then some event else best)
    none

/-- The per-ticker candidates of a detection pass, in dict order. -/
def spike_candidates (history : PriceHistory) (config : SpikeConfig)
    (now : ℚ) (cooldowns : List (String × ℚ)) : List SpikeEvent :=
  history.data.filterMap
    (fun entry => ticker_candidate config now cooldowns entry.1 entry.2)

/-- The accumulator invariant of `detect_spike`'s fold: starting from
any running best, the fold returns `none` only from `none` and an empty
candidate list, and any returned event is the initial best or one of the
candidates and weakly dominates all of them. -/
theorem detect_spike_go_spec (config : SpikeConfig) (now : ℚ)
    (cooldowns : List (String × ℚ))
    (l : List (String × List PriceSnapshot)) (acc : Option SpikeEvent) :
    (l.foldl
        (fun best entry =>
          match ticker_candidate config now cooldowns entry.1 entry.2 with
          | none => best
          | some event =>
            match best with
            | none => some event
            | some b => if b.delta < event.delta then some event else best)
        acc = none ↔
      (acc = none ∧
        l.filterMap
          (fun entry =>
            ticker_candidate config now cooldowns entry.1 entry.2) = [])) ∧
    (∀ e,
      l.foldl
        (fun best entry =>
          match ticker_candidate config now cooldowns entry.1 entry.2 with
          | none => best
          | some event =>
            match best with
            | none => some event
            | some b => if b.delta < event.delta then some event else best)
        acc = some e →
      ((acc = some e ∨
          e ∈ l.filterMap
            (fun entry =>
              ticker_candidate config now cooldowns entry.1 entry.2)) ∧
        (∀ b, acc = some b → b.delta ≤ e.delta) ∧
        (∀ e' ∈ l.filterMap
            (fun entry =>
              ticker_candidate config now cooldowns entry.1 entry.2),
          e'.delta ≤ e.delta))) := by
  induction l generalizing acc with
  | nil =>
    refine ⟨by simp, fun e he => ⟨Or.inl (by simpa using he), fun b hb => ?_,
      by simp⟩⟩
    simp only [List.foldl_nil] at he
    rw [he] at hb
    cases hb
    exact le_refl _
  | cons a l ih =>
    rcases hca : ticker_candidate config now cooldowns a.1 a.2 with _ | ev
    · simp only [List.foldl_cons, List.filterMap_cons, hca]
      refine ⟨(ih acc).1.trans (by simp), fun e he => ?_⟩
      obtain ⟨h1, h2, h3⟩ := (ih acc).2 e he
      exact ⟨h1, h2, h3⟩
    · simp only [List.foldl_cons, List.filterMap_cons, hca]
      rcases acc with _ | b
      · refine ⟨?_, fun e he => ?_⟩
        · rw [(ih (some ev)).1]
          simp
        · obtain ⟨h1, h2, h3⟩ := (ih (some ev)).2 e he
          refine ⟨Or.inr ?_, by simp, ?_⟩
          · rcases h1 with h | h
            · simp at h
              simp [h]
            · simp [h]
          · intro e' he'
            simp only [List.mem_cons] at he'
            rcases he' with rfl | he'
            · exact h2 e' rfl
            · exact h3 e' he'
      · by_cases hlt : b.delta < ev.delta
        · simp only [if_pos hlt]
          refine ⟨?_, fun e he => ?_⟩
          · rw [(ih (some ev)).1]
            simp
          · obtain ⟨h1, h2, h3⟩ := (ih (some ev)).2 e he
            refine ⟨Or.inr ?_, fun b' hb' => ?_, ?_⟩
            · rcases h1 with h | h
              · simp at h
                simp [h]
              · simp [h]
            · cases hb'
              have := h2 ev rfl
              omega
            · intro e' he'
              simp only [List.mem_cons] at he'
              rcases he' with rfl | he'
              · exact h2 e' rfl
              · exact h3 e' he'
        · simp only [if_neg hlt]
          refine ⟨?_, fun e he => ?_⟩
          · rw [(ih (some b)).1]
            simp
          · obtain ⟨h1, h2, h3⟩ := (ih (some b)).2 e he
            refine ⟨?_, fun b' hb' => ?_, ?_⟩
            · rcases h1 with h | h
              · exact Or.inl h
              · exact Or.inr (List.mem_cons_of_mem _ h)
            · cases hb'
              exact h2 b rfl
            · intro e' he'
              simp only [List.mem_cons] at he'
              rcases he' with rfl | he'
              · have := h2 b rfl
                omega
              · exact h3 e' he'

/-- On a deque sorted by timestamp, `find?` with the in-window test
returns an in-window snapshot of minimal timestamp. -/
theorem find_first_in_window (ws : ℚ) (snaps : List PriceSnapshot)
    (oldest : PriceSnapshot)
    (hsorted : snaps.Pairwise (fun a b => a.timestamp ≤ b.timestamp))
    (hfind : snaps.find? (fun s => decide (ws ≤ s.timestamp)) = some oldest) :
    oldest ∈ snaps ∧ ws ≤ oldest.timestamp ∧
      ∀ s ∈ snaps, ws ≤ s.timestamp → oldest.timestamp ≤ s.timestamp := by
  induction snaps with
  | nil => simp at hfind
  | cons a t ih =>
    rw [List.pairwise_cons] at hsorted
    by_cases hp : ws ≤ a.timestamp
    · rw [List.find?_cons_of_pos _ (by simpa using hp)] at hfind
      cases hfind
      refine ⟨List.mem_cons_self .., hp, fun s hs _ => ?_⟩
      rcases List.mem_cons.mp hs with rfl | hs
      · exact le_refl _
      · exact hsorted.1 s hs
    · rw [List.find?_cons_of_neg _ (by simpa using hp)] at hfind
      obtain ⟨hmem, hws, hmin⟩ := ih hsorted.2 hfind
      refine ⟨List.mem_cons_of_mem _ hmem, hws, fun s hs h => ?_⟩
      rcases List.mem_cons.mp hs with rfl | hs
      · exact absurd h hp
      · exact hmin s hs h

/-- C2: `detect_spike` considers a ticker only when it has at least two
snapshots and no cooldown entry younger than `cooldown_seconds`; for a
considered ticker it pairs the oldest in-window snapshot with the latest
snapshot and emits a candidate when the delta reaches the threshold; the
overall result is a candidate of maximal delta, and `none` exactly when
no ticker produces a candidate.  The concrete scenario: snapshots 7¢ at
t−180 s and 32¢ at t with window 360 s spike at threshold 20 (giving
`old=7, new=32, delta=25`) but not at threshold 30; a cooldown entry at
t blocks the spike; at t+601 s, past the 600 s cooldown, a fresh
qualifying pair spikes again. -/
theorem detect_spike_spec :
    (∀ (history : PriceHistory) (config : SpikeConfig) (now : ℚ)
        (cooldowns : List (String × ℚ)),
      (detect_spike history config now cooldowns = none ↔
        spike_candidates history config now cooldowns = []) ∧
      (∀ e, detect_spike history config now cooldowns = some e →
        e ∈ spike_candidates history config now cooldowns ∧
        ∀ e' ∈ spike_candidates history config now cooldowns,
          e'.delta ≤ e.delta)) ∧
    (∀ (config : SpikeConfig) (now : ℚ) (cooldowns : List (String × ℚ))
        (ticker : String) (snapshots : List PriceSnapshot),
      snapshots.length < 2 →
      ticker_candidate config now cooldowns ticker snapshots = none) ∧
    (∀ (config : SpikeConfig) (now : ℚ) (cooldowns : List (String × ℚ))
        (ticker : String) (snapshots : List PriceSnapshot) (t0 : ℚ),
      cooldown_lookup cooldowns ticker = some t0 →
      now - t0 < (config.cooldown_seconds : ℚ) →
      ticker_candidate config now cooldowns ticker snapshots = none) ∧
    (∀ (config : SpikeConfig) (now : ℚ) (cooldowns : List (String × ℚ))
        (ticker : String) (snapshots : List PriceSnapshot) (e : SpikeEvent),
      snapshots.Pairwise (fun a b => a.timestamp ≤ b.timestamp) →
      ticker_candidate config now cooldowns ticker snapshots = some e →
      ∃ oldest ∈ snapshots,
        now - (config.window_seconds : ℚ) ≤ oldest.timestamp ∧
        (∀ s ∈ snapshots, now - (config.window_seconds : ℚ) ≤ s.timestamp →
          oldest.timestamp ≤ s.timestamp) ∧
        ∃ latest, snapshots.getLast? = some latest ∧
          e = { ticker := ticker, old_price := oldest.price_cents,
                new_price := latest.price_cents,
                delta := latest.price_cents - oldest.price_cents,
                seconds_elapsed := latest.timestamp - oldest.timestamp } ∧
          config.spike_threshold_cents ≤ e.delta) ∧
    (detect_spike
        { data := [("T", [⟨7, 820⟩, ⟨32, 1000⟩])] }
        { spike_threshold_cents := 20, window_seconds := 360 } 1000 [] =
      some ⟨"T", 7, 32, 25, 180⟩) ∧
    (detect_spike
        { data := [("T", [⟨7, 820⟩, ⟨32, 1000⟩])] }
        { spike_threshold_cents := 30, window_seconds := 360 } 1000 [] =
      none) ∧
    (detect_spike
        { data := [("T", [⟨7, 820⟩, ⟨32, 1000⟩])] }
        { spike_threshold_cents := 20, window_seconds := 360 } 1000
        [("T", 1000)] =
      none) ∧
    (detect_spike
        { data := [("T", [⟨7, 1500⟩, ⟨32, 1601⟩])] }
        { spike_threshold_cents := 20, window_seconds := 360 } 1601
        [("T", 1000)] =
      some ⟨"T", 7, 32, 25, 101⟩) := by
  refine ⟨fun history config now cooldowns => ?_, ?_, ?_, ?_, ?_, ?_, ?_, ?_⟩
  · obtain ⟨h1, h2⟩ :=
      detect_spike_go_spec config now cooldowns history.data none
    constructor
    · simpa [detect_spike, spike_candidates] using h1
    · intro e he
      obtain ⟨hmem, _, hmax⟩ := h2 e (by simpa [detect_spike] using he)
      refine ⟨?_, by simpa [spike_candidates] using hmax⟩
      rcases hmem with h | h
      · simp at h
      · simpa [spike_candidates] using h
  · intro config now cooldowns ticker snapshots hlen
    simp [ticker_candidate, hlen]
  · intro config now cooldowns ticker snapshots t0 hcd hlt
    simp [ticker_candidate, hcd, hlt]
  · intro config now cooldowns ticker snapshots e hsorted h
    rcases hfind : snapshots.find?
        (fun s => decide (now - (config.window_seconds : ℚ) ≤ s.timestamp))
      with _ | oldest
    · simp only [ticker_candidate, hfind] at h
      split at h
      · simp at h
      split at h
      · simp at h
      · simp at h
    · rcases hlast : snapshots.getLast? with _ | latest
      · simp only [ticker_candidate, hfind, hlast] at h
        split at h
        · simp at h
        split at h
        · simp at h
        · simp at h
      · simp only [ticker_candidate, hfind, hlast] at h
        split at h
        · simp at h
        split at h
        · simp at h
        split at h
        · rename_i hthr
          obtain ⟨hmem, hws, hmin⟩ :=
            find_first_in_window _ _ _ hsorted hfind
          cases h
          exact ⟨oldest, hmem, hws, hmin, latest, rfl, rfl, hthr⟩
        · simp at h
  · norm_num [detect_spike, ticker_candidate, cooldown_lookup]
  · norm_num [detect_spike, ticker_candidate, cooldown_lookup]
  · norm_num [detect_spike, ticker_candidate, cooldown_lookup]
  · norm_num [detect_spike, ticker_candidate, cooldown_lookup]

/-- Witness for C2: an empty snapshot list is never considered, and a
ticker on active cooldown is skipped even with a qualifying pair. -/
theorem detect_spike_spec_witness :
    ticker_candidate {} 0 [] "T" [] = none ∧
    ticker_candidate {} 1000 [("T", 1000)] "T" [⟨7, 820⟩, ⟨32, 1000⟩] =
      none :=
  ⟨detect_spike_spec.2.1 {} 0 [] "T" [] (by norm_num),
   detect_spike_spec.2.2.1 {} 1000 [("T", 1000)] "T"
     [⟨7, 820⟩, ⟨32, 1000⟩] 1000 (by simp [cooldown_lookup]) (by norm_num)⟩

/-! ## Price-history pruning (spike_monitor.py, `PriceHistory.prune`) -/

/-- The `while dq and dq[0].timestamp < cutoff: dq.popleft()` loop of
`PriceHistory.prune`, i.e. dropping the stale front of the deque. -/
def prune_deque (max_age : Int) (now : ℚ) (dq : List PriceSnapshot) :
    List PriceSnapshot :=
  dq.dropWhile (fun s => decide (s.timestamp < now - (max_age : ℚ)))

/-- `PriceHistory.prune` from `spike_monitor.py`: prune one ticker's
deque in place (a no-op for absent tickers). -/
def PriceHistory.prune (h : PriceHistory) (ticker : String) (now : ℚ) :
    PriceHistory :=
  { h with
    data := h.data.map fun entry =>
      if entry.1 == ticker then
        (entry.1, prune_deque h.max_age_seconds now entry.2)
      else entry }

/-- `PriceHistory.prune_all` from `spike_monitor.py`: prune every
tracked ticker. -/
def PriceHistory.prune_all (h : PriceHistory) (now : ℚ) : PriceHistory :=
  { h with
    data := h.data.map fun entry =>
      (entry.1, prune_deque h.max_age_seconds now entry.2) }

/-- What the popleft loop guarantees on a time-ordered deque: all
retained snapshots are at most `max_age` old, no snapshot at most
`max_age` old is dropped, and the retained deque is a suffix of the
original (so the original order is kept). -/
theorem prune_deque_spec (max_age : Int) (now : ℚ)
    (dq : List PriceSnapshot)
    (hsorted : dq.Pairwise (fun a b => a.timestamp ≤ b.timestamp)) :
    (∀ s ∈ prune_deque max_age now dq,
      now - s.timestamp ≤ (max_age : ℚ)) ∧
    (∀ s ∈ dq, now - s.timestamp ≤ (max_age : ℚ) →
      s ∈ prune_deque max_age now dq) ∧
    (prune_deque max_age now dq) <:+ dq := by
  induction dq with
  | nil => simp [prune_deque]
  | cons a t ih =>
    rw [List.pairwise_cons] at hsorted
    obtain ⟨ih1, ih2, ih3⟩ := ih hsorted.2
    by_cases hp : a.timestamp < now - (max_age : ℚ)
    · have hd : prune_deque max_age now (a :: t) = prune_deque max_age now t := by
        simp [prune_deque, List.dropWhile_cons, hp]
      refine ⟨hd ▸ ih1, fun s hs hyoung => ?_, hd ▸ ih3.trans (List.suffix_cons a t)⟩
      rcases List.mem_cons.mp hs with rfl | hs
      · exfalso
        have : now - s.timestamp > (max_age : ℚ) := by linarith
        linarith
      · exact hd ▸ ih2 s hs hyoung
    · have hd : prune_deque max_age now (a :: t) = a :: t := by
        simp [prune_deque, List.dropWhile_cons, hp]
      rw [hd]
      refine ⟨fun s hs => ?_, fun s hs _ => hs, List.suffix_refl _⟩
      rcases List.mem_cons.mp hs with rfl | hs
      · linarith [not_lt.mp hp]
      · have := hsorted.1 s hs
        have := not_lt.mp hp
        linarith

/-- C9: for a price history whose deques are in timestamp order (the
append-only monotonic-clock invariant), `prune` and `prune_all` replace
a ticker's deque by the suffix of snapshots at most `max_age_seconds`
old: every retained snapshot satisfies `now − ts ≤ max_age_seconds`, no
snapshot satisfying it is dropped, and the order is preserved. -/
theorem price_history_prune_spec (h : PriceHistory) (now : ℚ)
    (ticker : String) (snaps : List PriceSnapshot)
    (hmem : (ticker, snaps) ∈ h.data)
    (hsorted : snaps.Pairwise (fun a b => a.timestamp ≤ b.timestamp)) :
    (∀ s ∈ prune_deque h.max_age_seconds now snaps,
      now - s.timestamp ≤ (h.max_age_seconds : ℚ)) ∧
    (∀ s ∈ snaps, now - s.timestamp ≤ (h.max_age_seconds : ℚ) →
      s ∈ prune_deque h.max_age_seconds now snaps) ∧
    (prune_deque h.max_age_seconds now snaps) <:+ snaps ∧
    (ticker, prune_deque h.max_age_seconds now snaps) ∈
      (h.prune ticker now).data ∧
    (ticker, prune_deque h.max_age_seconds now snaps) ∈
      (h.prune_all now).data := by
  obtain ⟨h1, h2, h3⟩ := prune_deque_spec h.max_age_seconds now snaps hsorted
  refine ⟨h1, h2, h3, ?_, ?_⟩
  · have := List.mem_map_of_mem
      (fun entry : String × List PriceSnapshot =>
        if entry.1 == ticker then
          (entry.1, prune_deque h.max_age_seconds now entry.2)
        else entry) hmem
    simpa [PriceHistory.prune] using this
  · have := List.mem_map_of_mem
      (fun entry : String × List PriceSnapshot =>
        (entry.1, prune_deque h.max_age_seconds now entry.2)) hmem
    simpa [PriceHistory.prune_all] using this

/-- Witness for C9 on a concrete history at `now = 1000` with max age
600: the snapshot at t=100 is dropped, the one at t=900 is retained. -/
theorem price_history_prune_spec_witness :
    (⟨"T", prune_deque 600 1000 [⟨7, 100⟩, ⟨32, 900⟩]⟩ :
        String × List PriceSnapshot) ∈
      (PriceHistory.prune_all
        { max_age_seconds := 600, data := [("T", [⟨7, 100⟩, ⟨32, 900⟩])] }
        1000).data :=
  (price_history_prune_spec
    { max_age_seconds := 600, data := [("T", [⟨7, 100⟩, ⟨32, 900⟩])] }
    1000 "T" [⟨7, 100⟩, ⟨32, 900⟩] (by simp)
    (by norm_num [List.pairwise_cons])).2.2.2.2

/-! ## Fees & EV accountant (accountant.py)

`compute_ev_no` ends in Python's `round(ev, 2)`; the comparison
`ev >= 0` in `compute_max_buy_price_no` therefore sees the rounded
value.  The embedding keeps that rounding (as round-half-to-even on
rationals, which agrees with the float computation everywhere the
theorems below touch: the quantities compared sit at distance ≥ 1/10⁴
from the tie points, far above the ~1e-13 float error). -/

/-- `compute_taker_fee_cents` from `accountant.py`:
`ceil(taker_rate * contracts * P * (1-P) * 100)` with `P = price/100`. -/
def compute_taker_fee_cents (price_cents contracts : Int) (config : Config) :
    Int :=
  let p : ℚ := (price_cents : ℚ) / 100
  let raw : ℚ := config.fees.taker_rate * (contracts : ℚ) * p * (1 - p)
  ⌈raw * 100⌉

/-- Round half to even to an integer (the tie-breaking rule of Python's
`round`). -/
def round_half_even (x : ℚ) : Int :=
  let f := ⌊x⌋
  let r := x - (f : ℚ)
  if r < 1/2 then f
  else if 1/2 < r then f + 1
  else if Even f then f else f + 1

/-- Python's `round(x, 2)` on rationals. -/
def py_round2 (x : ℚ) : ℚ :=
  ((round_half_even (x * 100) : ℚ)) / 100

/-- `compute_ev_no` from `accountant.py`, including its final
`round(ev, 2)`. -/
def compute_ev_no (buy_price_no_cents : Int) (p_no : ℚ) (contracts : Int)
    (config : Config) : ℚ :=
  let fee := compute_taker_fee_cents buy_price_no_cents contracts config
  let fee_per_contract : ℚ :=
    if 0 < contracts then (fee : ℚ) / (contracts : ℚ) else 0
  let payout_if_win : ℚ := 100 - (buy_price_no_cents : ℚ)
  py_round2 (p_no * payout_if_win -
    (1 - p_no) * (buy_price_no_cents : ℚ) - fee_per_contract)

/-- The `for price in range(99, 0, -1)` loop of
`compute_max_buy_price_no`, as a countdown on the fuel. -/
def max_buy_go (p_no : ℚ) (config : Config) : Nat → Int
  | 0 => 0
  | n + 1 =>
    if 0 ≤ compute_ev_no ((n : Int) + 1) p_no 1 config then (n : Int) + 1
    else max_buy_go p_no config n

/-- `compute_max_buy_price_no` from `accountant.py`. -/
def compute_max_buy_price_no (p_no : ℚ) (config : Config) : Int :=
  max_buy_go p_no config 99

/-- The claim's (and spec §4.7's) unrounded net EV per contract for
buying NO at `c`: `100p − c − fee`, with the taker fee of the code's
formula.  Stated separately from `compute_ev_no` to compare the claim
against the code. -/
def spec_ev_no_exact (c : Int) (p : ℚ) (config : Config) : ℚ :=
  100 * p - (c : ℚ) - (compute_taker_fee_cents c 1 config : ℚ)

/-- A half-even rounding is nonnegative exactly on `[-1/2, ∞)`. -/
theorem round_half_even_nonneg (x : ℚ) :
    0 ≤ round_half_even x ↔ -(1/2) ≤ x := by
  have hf : ((⌊x⌋ : ℚ)) ≤ x := Int.floor_le x
  have hf1 : x < (⌊x⌋ : ℚ) + 1 := Int.lt_floor_add_one x
  simp only [round_half_even]
  split_ifs with h1 h2 h3
  · constructor
    · intro h
      have : (0 : ℚ) ≤ (⌊x⌋ : ℚ) := by exact_mod_cast h
      linarith
    · intro h
      by_contra hne
      have hle : ⌊x⌋ ≤ -1 := by omega
      have : ((⌊x⌋ : ℚ)) ≤ -1 := by exact_mod_cast hle
      linarith
  · constructor
    · intro h
      have hge : (-1 : ℤ) ≤ ⌊x⌋ := by omega
      have : ((-1 : ℤ) : ℚ) ≤ ((⌊x⌋ : ℚ)) := by exact_mod_cast hge
      push_cast at this
      linarith
    · intro h
      by_contra hne
      have hle : ⌊x⌋ ≤ -2 := by omega
      have : ((⌊x⌋ : ℚ)) ≤ -2 := by exact_mod_cast hle
      linarith
  · have hx : x = (⌊x⌋ : ℚ) + 1/2 := by linarith
    obtain ⟨k, hk⟩ := h3
    constructor
    · intro h
      have : (0 : ℚ) ≤ (⌊x⌋ : ℚ) := by exact_mod_cast h
      linarith
    · intro h
      have : (-1 : ℚ) ≤ (⌊x⌋ : ℚ) := by linarith
      have hge : (-1 : ℤ) ≤ ⌊x⌋ := by exact_mod_cast this
      have : 0 ≤ ⌊x⌋ := by omega
      exact this
  · have hx : x = (⌊x⌋ : ℚ) + 1/2 := by linarith
    constructor
    · intro h
      have hge : (-1 : ℤ) ≤ ⌊x⌋ := by omega
      have : ((-1 : ℤ) : ℚ) ≤ ((⌊x⌋ : ℚ)) := by exact_mod_cast hge
      push_cast at this
      linarith
    · intro h
      have : (-1 : ℚ) ≤ (⌊x⌋ : ℚ) := by linarith
      have hge : (-1 : ℤ) ≤ ⌊x⌋ := by exact_mod_cast this
      omega

/-- `round(x, 2)` is nonnegative exactly on `[-1/200, ∞)`. -/
theorem py_round2_nonneg (x : ℚ) : 0 ≤ py_round2 x ↔ -(1/200) ≤ x := by
  unfold py_round2
  rw [div_nonneg_iff]
  constructor
  · rintro (⟨h, _⟩ | ⟨_, h⟩)
    · have h0 : 0 ≤ round_half_even (x * 100) := by exact_mod_cast h
      have := (round_half_even_nonneg (x * 100)).mp h0
      linarith
    · norm_num at h
  · intro h
    left
    refine ⟨?_, by norm_num⟩
    have : 0 ≤ round_half_even (x * 100) :=
      (round_half_even_nonneg (x * 100)).mpr (by linarith)
    exact_mod_cast this

/-- `compute_ev_no` at one contract is the rounded exact EV. -/
theorem compute_ev_no_eq_round (c : Int) (p : ℚ) (config : Config) :
    compute_ev_no c p 1 config = py_round2 (spec_ev_no_exact c p config) := by
  simp only [compute_ev_no, spec_ev_no_exact]
  rw [if_pos (by norm_num : (0:Int) < 1)]
  congr 1
  push_cast
  ring

/-- The default taker fee on one contract is 1¢ up to the price where
`7·c·(100−c)` crosses 10000, and 2¢ beyond it. -/
theorem taker_fee_default_eval (c : Int) (hc1 : 1 ≤ c) (hc99 : c ≤ 99) :
    compute_taker_fee_cents c 1 DEFAULT_CONFIG =
      if 7 * c * (100 - c) ≤ 10000 then 1 else 2 := by
  have harg : (DEFAULT_CONFIG.fees.taker_rate * ((1 : Int) : ℚ) *
      (((c : ℚ)) / 100) * (1 - ((c : ℚ)) / 100) * 100) =
      ((7 * c * (100 - c) : Int) : ℚ) / 10000 := by
    show ((7 : ℚ)/100 * _ * _ * _ * _ = _)
    push_cast
    ring
  have hpos : (0 : Int) < 7 * c * (100 - c) := by nlinarith
  have hub : 7 * c * (100 - c) ≤ 17500 := by nlinarith [sq_nonneg (c - 50)]
  have hq : (0 : ℚ) < ((7 * c * (100 - c) : Int) : ℚ) := by exact_mod_cast hpos
  simp only [compute_taker_fee_cents]
  rw [harg]
  split_ifs with hN
  · rw [Int.ceil_eq_iff]
    constructor
    · have : (0 : ℚ) < ((7 * c * (100 - c) : Int) : ℚ) / 10000 :=
        div_pos hq (by norm_num)
      push_cast at this ⊢
      linarith
    · rw [div_le_iff₀ (by norm_num : (0:ℚ) < 10000)]
      push_cast
      have : ((7 * c * (100 - c) : Int) : ℚ) ≤ 10000 := by exact_mod_cast hN
      push_cast at this
      linarith
  · rw [Int.ceil_eq_iff]
    constructor
    · rw [lt_div_iff₀ (by norm_num : (0:ℚ) < 10000)]
      have : (10000 : ℚ) < ((7 * c * (100 - c) : Int) : ℚ) := by
        exact_mod_cast (by omega : (10000 : Int) < 7 * c * (100 - c))
      push_cast at this ⊢
      linarith
    · rw [div_le_iff₀ (by norm_num : (0:ℚ) < 10000)]
      have : ((7 * c * (100 - c) : Int) : ℚ) ≤ 17500 := by exact_mod_cast hub
      push_cast at this ⊢
      linarith

/-- Integer bridge: for `p = a/b`, the sign test the code runs on the
rounded EV is an integer inequality. -/
theorem ev_int_bridge (a b c : Int) (hb : 0 < b) (hc1 : 1 ≤ c)
    (hc99 : c ≤ 99) :
    (0 ≤ compute_ev_no c ((a : ℚ) / (b : ℚ)) 1 DEFAULT_CONFIG) ↔
      -b ≤ 20000 * a -
        200 * (c + (if 7 * c * (100 - c) ≤ 10000 then (1 : Int) else 2)) * b := by
  have hbq : (0 : ℚ) < (b : ℚ) := by exact_mod_cast hb
  rw [compute_ev_no_eq_round, py_round2_nonneg]
  have hfee := taker_fee_default_eval c hc1 hc99
  set fee : Int := if 7 * c * (100 - c) ≤ 10000 then (1 : Int) else 2 with hfee_def
  have hexact : spec_ev_no_exact c ((a : ℚ) / (b : ℚ)) DEFAULT_CONFIG =
      ((100 * a - (c + fee) * b : Int) : ℚ) / (b : ℚ) := by
    unfold spec_ev_no_exact
    rw [hfee]
    push_cast
    field_simp
    ring
  rw [hexact, le_div_iff₀ hbq]
  have hring : (200 : Int) * (100 * a - (c + fee) * b) =
      20000 * a - 200 * (c + fee) * b := by ring
  constructor
  · intro h
    have h2 : ((-b : Int) : ℚ) ≤
        ((200 * (100 * a - (c + fee) * b) : Int) : ℚ) := by
      push_cast at h ⊢
      linarith
    have h3 : (-b : Int) ≤ 200 * (100 * a - (c + fee) * b) := by
      exact_mod_cast h2
    rw [hring] at h3
    exact h3
  · intro h
    have h3 : (-b : Int) ≤ 200 * (100 * a - (c + fee) * b) := by
      rw [hring]
      exact h
    have h2 : ((-b : Int) : ℚ) ≤
        ((200 * (100 * a - (c + fee) * b) : Int) : ℚ) := by
      exact_mod_cast h3
    push_cast at h2 ⊢
    linarith

/-- The integer mirror of the descending `range(99, 0, -1)` search, for
`p = a/b` with the default configuration. -/
def max_buy_int (a b : Int) : Nat → Int
  | 0 => 0
  | n + 1 =>
    if -b ≤ 20000 * a - 200 * (((n : Int) + 1) +
        (if 7 * ((n : Int) + 1) * (100 - ((n : Int) + 1)) ≤ 10000
         then (1 : Int) else 2)) * b
    then (n : Int) + 1
    else max_buy_int a b n

/-- The code's search and the integer mirror agree. -/
theorem max_buy_go_eq_int (a b : Int) (hb : 0 < b) :
    ∀ n : Nat, n ≤ 99 →
      max_buy_go ((a : ℚ) / (b : ℚ)) DEFAULT_CONFIG n = max_buy_int a b n := by
  intro n
  induction n with
  | zero => intro _; rfl
  | succ n ih =>
    intro hn
    have hbr := ev_int_bridge a b ((n : Int) + 1) hb (by omega) (by omega)
    simp only [max_buy_go, max_buy_int, hbr]
    by_cases hcond : -b ≤ 20000 * a - 200 * (((n : Int) + 1) +
        (if 7 * ((n : Int) + 1) * (100 - ((n : Int) + 1)) ≤ 10000
         then (1 : Int) else 2)) * b
    · rw [if_pos hcond, if_pos hcond]
    · rw [if_neg hcond, if_neg hcond]
      exact ih (by omega)

/-- C4 (amended): `compute_max_buy_price_no` returns the largest price
`c ∈ [1, 99]` at which the code's EV — the exact net EV `100p − c − fee`
rounded to two decimals, equivalently the exact net EV tested against
`−1/200` instead of `0` — is nonnegative, and `0` when no such price
exists. -/
theorem compute_max_buy_price_no_spec (config : Config) (p : ℚ) :
    ((compute_max_buy_price_no p config = 0 ∧
        ∀ c : Int, 1 ≤ c → c ≤ 99 → ¬ 0 ≤ compute_ev_no c p 1 config) ∨
      (1 ≤ compute_max_buy_price_no p config ∧
        compute_max_buy_price_no p config ≤ 99 ∧
        0 ≤ compute_ev_no (compute_max_buy_price_no p config) p 1 config ∧
        ∀ c : Int, compute_max_buy_price_no p config < c → c ≤ 99 →
          ¬ 0 ≤ compute_ev_no c p 1 config)) ∧
    (∀ c : Int, 0 ≤ compute_ev_no c p 1 config ↔
      -(1/200) ≤ spec_ev_no_exact c p config) := by
  constructor
  · have main : ∀ n : Nat, n ≤ 99 →
        ((max_buy_go p config n = 0 ∧
          ∀ c : Int, 1 ≤ c → c ≤ (n : Int) → ¬ 0 ≤ compute_ev_no c p 1 config) ∨
        (1 ≤ max_buy_go p config n ∧ max_buy_go p config n ≤ (n : Int) ∧
          0 ≤ compute_ev_no (max_buy_go p config n) p 1 config ∧
          ∀ c : Int, max_buy_go p config n < c → c ≤ (n : Int) →
            ¬ 0 ≤ compute_ev_no c p 1 config)) := by
      intro n
      induction n with
      | zero => exact fun _ => Or.inl ⟨rfl, fun c h1 h2 _ => by omega⟩
      | succ n ih =>
        intro hn
        simp only [max_buy_go]
        split
        · next hev =>
          refine Or.inr ⟨by omega, by push_cast; omega, hev, ?_⟩
          intro c hlt hle
          push_cast at hlt hle
          omega
        · next hev =>
          rcases ih (by omega) with ⟨h0, hall⟩ | ⟨h1, h2, h3, h4⟩
          · refine Or.inl ⟨h0, fun c hc1 hc2 => ?_⟩
            push_cast at hc2
            rcases (by omega : c ≤ (n : Int) ∨ c = (n : Int) + 1) with h | rfl
            · exact hall c hc1 h
            · exact hev
          · refine Or.inr ⟨h1, by push_cast; omega, h3, fun c hc1 hc2 => ?_⟩
            push_cast at hc2
            rcases (by omega : c ≤ (n : Int) ∨ c = (n : Int) + 1) with h | rfl
            · exact h4 c hc1 h
            · exact hev
    have := main 99 (le_refl _)
    simpa [compute_max_buy_price_no] using this
  · intro c
    rw [compute_ev_no_eq_round, py_round2_nonneg]

/-- C4 counterexample: at `p = 0.51996` the code returns 50 although the
exact net EV at 50 is `−0.004 < 0` (the rounded EV tested by the code is
`round(−0.004, 2) = −0.0 ≥ 0`); the largest price with exact EV ≥ 0 is
49. -/
theorem compute_max_buy_price_no_counterexample :
    compute_max_buy_price_no (12999/25000) DEFAULT_CONFIG = 50 ∧
    spec_ev_no_exact 50 (12999/25000) DEFAULT_CONFIG < 0 ∧
    0 ≤ spec_ev_no_exact 49 (12999/25000) DEFAULT_CONFIG := by
  have hcast : (12999/25000 : ℚ) = ((12999 : Int) : ℚ) / ((25000 : Int) : ℚ) := by
    norm_num
  refine ⟨?_, ?_, ?_⟩
  · rw [compute_max_buy_price_no, hcast,
      max_buy_go_eq_int 12999 25000 (by norm_num) 99 (le_refl _)]
    decide
  · rw [show spec_ev_no_exact 50 (12999/25000) DEFAULT_CONFIG =
        100 * (12999/25000 : ℚ) - 50 -
          ((compute_taker_fee_cents 50 1 DEFAULT_CONFIG : Int) : ℚ) from rfl]
    rw [taker_fee_default_eval 50 (by norm_num) (by norm_num)]
    norm_num
  · rw [show spec_ev_no_exact 49 (12999/25000) DEFAULT_CONFIG =
        100 * (12999/25000 : ℚ) - 49 -
          ((compute_taker_fee_cents 49 1 DEFAULT_CONFIG : Int) : ℚ) from rfl]
    rw [taker_fee_default_eval 49 (by norm_num) (by norm_num)]
    norm_num

/-- Witness for C4 (amended) at `p = 0.51996`, `c = 50`: the code's
EV-sign test coincides with testing the exact EV against `−1/200`. -/
theorem compute_max_buy_price_no_spec_witness :
    0 ≤ compute_ev_no 50 (12999/25000) 1 DEFAULT_CONFIG ↔
      -(1/200) ≤ spec_ev_no_exact 50 (12999/25000) DEFAULT_CONFIG :=
  (compute_max_buy_price_no_spec DEFAULT_CONFIG (12999/25000)).2 50

/-! ## CLI day window (rules.py, `get_cli_day_window`)

Dates and instants are embedded as proleptic-Gregorian day numbers and
minutes; a time zone is its UTC-offset function on local midnights,
which is all `get_cli_day_window` consults. -/

/-- Days since 1970-01-01 of a Gregorian date (the standard civil-date
algorithm). -/
def days_from_civil (y m d : Int) : Int :=
  let y' := if m ≤ 2 then y - 1 else y
  let era := (if 0 ≤ y' then y' else y' - 399) / 400
  let yoe := y' - era * 400
  let mp := if m ≤ 2 then m + 9 else m - 3
  let doy := (153 * mp + 2) / 5 + d - 1
  let doe := yoe * 365 + yoe / 4 - yoe / 100 + doy
  era * 146097 + doe - 719468

/-- Day of week, 0 = Sunday (1970-01-01 was a Thursday). -/
def day_of_week (days : Int) : Int :=
  (days + 4) % 7

/-- A time zone as `zoneinfo` presents it to `get_cli_day_window`: the
UTC offset, in minutes, that the zone has at the local midnight of a
given date. -/
structure TimeZone where
  utcoffset_minutes : Int → Int → Int → Int

/-- Day number of the n-th Sunday on or after a date. -/
def sunday_on_or_after (days : Int) : Int :=
  days + (7 - day_of_week days) % 7

/-- Whether a US date's local midnight falls in daylight-saving time
under the post-2007 rule: after the second Sunday of March (whose own
midnight is still standard — the jump is at 02:00) and not after the
first Sunday of November (whose own midnight is still daylight time). -/
def us_dst_at_midnight (y m d : Int) : Bool :=
  let n := days_from_civil y m d
  let second_sunday_march := sunday_on_or_after (days_from_civil y 3 1) + 7
  let first_sunday_november := sunday_on_or_after (days_from_civil y 11 1)
  decide (second_sunday_march < n ∧ n ≤ first_sunday_november)

/-- Modelled from the IANA tz database entry `America/New_York` (which
`zoneinfo` reads; it is not part of this repository): EST = UTC−5h,
EDT = UTC−4h under the post-2007 US daylight-saving rule. -/
def America_New_York : TimeZone :=
  { utcoffset_minutes := fun y m d =>
      if us_dst_at_midnight y m d then -240 else -300 }

/-- `get_cli_day_window` from `rules.py`, over minutes since the epoch:
take the zone's UTC offset at January 1 of the target year, build naive
local midnight and midnight + 24 h, and subtract that offset from both.
Returns `(start_utc, end_utc)` in minutes. -/
def get_cli_day_window (target_y target_m target_d : Int) (tz : TimeZone) :
    Int × Int :=
  let std_offset := tz.utcoffset_minutes target_y 1 1
  let start_lst := 1440 * days_from_civil target_y target_m target_d
  let end_lst := start_lst + 1440
  (start_lst - std_offset, end_lst - std_offset)

/-- C6: for any zone whose UTC offset on January 1 of the target year is
`60·s` minutes, the window is the 24-hour interval starting at local
midnight shifted by that offset, so its UTC start hour is `(−s) mod 24`
for every target date of that year — in particular independently of the
offset the zone has on the target date itself (DST or not). -/
theorem get_cli_day_window_spec (tz : TimeZone) (y m d s : Int)
    (hjan : tz.utcoffset_minutes y 1 1 = 60 * s) :
    (get_cli_day_window y m d tz).2 - (get_cli_day_window y m d tz).1 =
        1440 ∧
    (get_cli_day_window y m d tz).1 =
        1440 * days_from_civil y m d - 60 * s ∧
    (get_cli_day_window y m d tz).1 % 1440 = 60 * ((-s) % 24) := by
  refine ⟨by simp [get_cli_day_window],
    by simp [get_cli_day_window, hjan], ?_⟩
  have h1 : (get_cli_day_window y m d tz).1 =
      1440 * days_from_civil y m d - 60 * s := by
    simp [get_cli_day_window, hjan]
  rw [h1]
  omega

/-- Witness for C6: `America/New_York` on 2026-07-15.  January 1 gives
the standard offset −300 min = 60·(−5); the window starts at UTC minute
300 of the day, i.e. 05:00 UTC, although the date itself is in EDT
(offset −240). -/
theorem get_cli_day_window_spec_witness :
    (get_cli_day_window 2026 7 15 America_New_York).1 % 1440 =
        60 * ((-(-5 : Int)) % 24) ∧
    (get_cli_day_window 2026 7 15 America_New_York).1 % 1440 = 300 ∧
    America_New_York.utcoffset_minutes 2026 7 15 = -240 ∧
    America_New_York.utcoffset_minutes 2026 1 1 = 60 * (-5) :=
  ⟨(get_cli_day_window_spec America_New_York 2026 7 15 (-5)
      (by decide)).2.2,
   by decide, by decide, by decide⟩

/-! ## Station registry (rules.py / risk.py) -/

/-- ASCII lower-casing of one character (Python's `str.lower` on the
alphabet the registry uses). -/
def ascii_lower_char (c : Char) : Char :=
  if 65 ≤ c.toNat ∧ c.toNat ≤ 90 then Char.ofNat (c.toNat + 32) else c

/-- Python's `str.lower`, over the character list. -/
def py_lower (s : String) : String :=
  String.mk (s.data.map ascii_lower_char)

/-- Python's `str.strip`, over the character list. -/
def py_strip (s : String) : String :=
  String.mk (((s.data.dropWhile Char.isWhitespace).reverse.dropWhile
    Char.isWhitespace).reverse)

/-- Python's `sub in s` on strings: contiguous-substring test over the
character list (the empty string is a substring of everything). -/
def list_is_infix (sub s : List Char) : Bool :=
  match s with
  | [] => sub.isEmpty
  | _ :: tail => sub.isPrefixOf s || list_is_infix sub tail

/-- `sub in s` on `String`. -/
def str_in (sub s : String) : Bool :=
  list_is_infix sub.data s.data

/-- One `_STATION_DB` entry (rules.py), restricted to the fields the
verified lookups read. -/
structure StationEntry where
  kalshi_city : String
  aliases : List String
  station_icao : String
  cli_issuedby : String
  timezone : String
  confidence : MappingConfidence
  deriving DecidableEq, Repr

/-- `_STATION_DB` from `rules.py`, in source order. -/
def _STATION_DB : List StationEntry :=
  [⟨"New York", ["NYC", "New York City"], "KNYC", "NYC",
      "America/New_York", .HIGH⟩,
   ⟨"Chicago", [], "KMDW", "MDW", "America/Chicago", .HIGH⟩,
   ⟨"Miami", [], "KMIA", "MIA", "America/New_York", .HIGH⟩,
   ⟨"Austin", [], "KAUS", "AUS", "America/Chicago", .HIGH⟩,
   ⟨"Los Angeles", ["LA"], "KLAX", "LAX", "America/Los_Angeles", .HIGH⟩,
   ⟨"Denver", [], "KDEN", "DEN", "America/Denver", .HIGH⟩,
   ⟨"Las Vegas", [], "KLAS", "LAS", "America/Los_Angeles", .HIGH⟩,
   ⟨"Seattle", [], "KSEA", "SEA", "America/Los_Angeles", .HIGH⟩,
   ⟨"Atlanta", [], "KATL", "ATL", "America/New_York", .HIGH⟩,
   ⟨"Boston", [], "KBOS", "BOS", "America/New_York", .HIGH⟩,
   ⟨"Charlotte", [], "KCLT", "CLT", "America/New_York", .HIGH⟩,
   ⟨"Dallas", ["Dallas-Fort Worth", "DFW"], "KDFW", "DFW",
      "America/Chicago", .HIGH⟩,
   ⟨"Detroit", [], "KDTW", "DTW", "America/Detroit", .HIGH⟩,
   ⟨"Houston", [], "KHOU", "HOU", "America/Chicago", .HIGH⟩,
   ⟨"Jacksonville", [], "KJAX", "JAX", "America/New_York", .HIGH⟩,
   ⟨"Minneapolis", [], "KMSP", "MSP", "America/Chicago", .HIGH⟩,
   ⟨"Nashville", [], "KBNA", "BNA", "America/Chicago", .HIGH⟩,
   ⟨"New Orleans", [], "KMSY", "MSY", "America/Chicago", .HIGH⟩,
   ⟨"Oklahoma City", ["OKC"], "KOKC", "OKC", "America/Chicago", .HIGH⟩,
   ⟨"Philadelphia", ["Philly"], "KPHL", "PHL", "America/New_York", .HIGH⟩,
   ⟨"Phoenix", [], "KPHX", "PHX", "America/Phoenix", .HIGH⟩,
   ⟨"San Antonio", [], "KSAT", "SAT", "America/Chicago", .HIGH⟩,
   ⟨"San Francisco", ["SF"], "KSFO", "SFO", "America/Los_Angeles", .HIGH⟩,
   ⟨"Tampa", [], "KTPA", "TPA", "America/New_York", .HIGH⟩,
   ⟨"Washington", ["Washington D.C.", "DC", "Washington DC"], "KDCA",
      "DCA", "America/New_York", .HIGH⟩,
   ⟨"LaGuardia", ["LGA"], "KLGA", "LGA", "America/New_York", .MED⟩]

/-- `_CITY_INDEX` from `rules.py`: per entry, the lower-cased canonical
name then the lower-cased aliases (all keys are distinct, so the dict is
an association list searched front to back). -/
def _CITY_INDEX : List (String × StationEntry) :=
  _STATION_DB.foldl
    (fun idx entry =>
      idx ++ (py_lower entry.kalshi_city, entry) ::
        entry.aliases.map (fun a => (py_lower a, entry)))
    []

/-- `lookup_station` from `rules.py`: case-insensitive exact/alias
lookup, then an (unguarded) substring fallback over the index. -/
def lookup_station (city : String) : Option StationEntry :=
  let key := py_lower (py_strip city)
  match _CITY_INDEX.find? (fun e => e.1 == key) with
  | some e => some e.2
  | none =>
    (_CITY_INDEX.find?
      (fun e => str_in e.1 key || str_in key e.1)).map Prod.snd

/-- `_safe_substring_match` from `risk.py`: substring match requiring at
least 4 characters on both sides. -/
def _safe_substring_match (key candidate : String) : Bool :=
  if candidate.length < 4 || key.length < 4 then false
  else str_in candidate key || str_in key candidate

/-- C7 counterexample: the two-character query `"at"` is not an exact or
alias key, yet `lookup_station` resolves it — to Seattle — through the
substring fallback, which has no ≥ 4-character guard in `rules.py`. -/
theorem lookup_station_counterexample :
    "at".length < 4 ∧
    _CITY_INDEX.find? (fun e => e.1 == py_lower (py_strip "at")) = none ∧
    (lookup_station "at").map StationEntry.station_icao = some "KSEA" :=
  ⟨by decide, by decide, by decide⟩

/-- C7 (amended): the ≥ 4-characters-on-both-sides guard exists in the
risk engine's `_safe_substring_match` (which is exactly a substring
test gated on both lengths), and `lookup_station` resolves
case-insensitive exact and alias matches first — in particular `"LA"`
resolves to Los Angeles via its alias, not to Atlanta — but
`lookup_station`'s own substring fallback carries no length guard. -/
theorem lookup_station_spec :
    (∀ key candidate : String,
      _safe_substring_match key candidate = true ↔
        (4 ≤ key.length ∧ 4 ≤ candidate.length ∧
          (str_in candidate key = true ∨ str_in key candidate = true))) ∧
    (∀ (city : String) (e : String × StationEntry),
      _CITY_INDEX.find? (fun p => p.1 == py_lower (py_strip city)) = some e →
      lookup_station city = some e.2) ∧
    (lookup_station "LA").map StationEntry.station_icao = some "KLAX" ∧
    (lookup_station "Atlanta").map StationEntry.station_icao =
      some "KATL" := by
  refine ⟨fun key candidate => ?_, fun city e hfind => ?_, by decide,
    by decide⟩
  · unfold _safe_substring_match
    split_ifs with h
    · simp only [Bool.false_eq_true, false_iff]
      intro ⟨h1, h2, _⟩
      simp only [Bool.or_eq_true, decide_eq_true_eq, Nat.lt_iff_add_one_le]
        at h
      omega
    · simp only [Bool.or_eq_true]
      simp only [Bool.or_eq_true, decide_eq_true_eq, not_or, not_lt] at h
      exact ⟨fun hx => ⟨h.2, h.1, hx⟩, fun hx => hx.2.2⟩
  · simp only [lookup_station]
    rw [hfind]

/-- Witness for C7 (amended): the exact-match branch applied to
`"Chicago"`. -/
theorem lookup_station_spec_witness :
    lookup_station "Chicago" =
      some ⟨"Chicago", [], "KMDW", "MDW", "America/Chicago", .HIGH⟩ :=
  lookup_station_spec.2.1 "Chicago"
    ("chicago", ⟨"Chicago", [], "KMDW", "MDW", "America/Chicago", .HIGH⟩)
    (by decide)

/-! ## Spread assessment (planner.py) and hard rejects (team_lead.py) -/

/-- `LiquidityVerdict` from `planner.py`. -/
inductive LiquidityVerdict
  | OK
  | THIN
  | REJECT
  deriving DecidableEq, Repr

/-- `LiquidityAssessment` from `planner.py` (fields read by
`assess_spread`). -/
structure LiquidityAssessment where
  verdict : LiquidityVerdict
  top_of_book_depth : Int := 0
  top3_depth : Int := 0
  notes : String := ""
  deriving DecidableEq, Repr

/-- `SpreadVerdict` from `planner.py`. -/
inductive SpreadVerdict
  | OK
  | WIDE_EXCEPTION
  | REJECT
  deriving DecidableEq, Repr

/-- `SpreadAssessment` from `planner.py`. -/
structure SpreadAssessment where
  verdict : SpreadVerdict
  spread_cents : Option Int
  notes : String
  deriving DecidableEq, Repr

/-- `assess_spread` from `planner.py`: REJECT on missing bid-room;
OK within `max_spread_cents`; beyond it, WIDE_EXCEPTION only with
strong depth and model edge > 3%.  (The `%.1f` float formatting of the
edge inside the exception note is abstracted by `toString`; no verified
property reads that string.) -/
def assess_spread (ob : OrderbookSnapshot) (model_edge_pct : Option ℚ)
    (liquidity : Option LiquidityAssessment) (config : Config) :
    SpreadAssessment :=
  match ob.bid_room_cents with
  | none =>
    { verdict := .REJECT, spread_cents := none,
      notes := "Cannot compute spread — missing bid data" }
  | some spread =>
    let max_spread := config.spread.max_spread_cents
    if spread ≤ max_spread then
      { verdict := .OK, spread_cents := some spread,
        notes := s!"Spread {spread}c within limit ({max_spread}c)" }
    else
      let strong_depth : Bool :=
        match liquidity with
        | some l => decide (l.verdict = .OK)
        | none => false
      let large_edge : Bool :=
        match model_edge_pct with
        | some e => decide (3 < e)
        | none => false
      if strong_depth && large_edge then
        { verdict := .WIDE_EXCEPTION, spread_cents := some spread,
          notes := s!"WIDE-SPREAD EXCEPTION: spread {spread}c > {max_spread}c but depth is strong and edge is large" }
      else
        { verdict := .REJECT, spread_cents := some spread,
          notes := s!"Spread {spread}c exceeds limit ({max_spread}c) without qualifying for exception" }

/-- Gate 1 of `apply_hard_rejects` (team_lead.py): mapping confidence
present and not HIGH. -/
def mapping_confidence_gate (c : UnifiedCandidate) : Option String :=
  match c.settlement_spec with
  | some s =>
    if s.mapping_confidence ≠ .HIGH then
      some ("Mapping confidence " ++ s.mapping_confidence.value ++ " != HIGH")
    else none
  | none => none

/-- Gate 2: implied NO ask missing. -/
def implied_ask_gate (c : UnifiedCandidate) : Option String :=
  match c.orderbook_snapshot.implied_best_no_ask_cents with
  | none => some "Cannot compute implied_best_no_ask — missing best_yes_bid"
  | some _ => none

/-- Gate 3: spread sanity (the source calls `assess_spread(ob)` with its
default `model_edge_pct=None`, `liquidity=None`, `config=DEFAULT_CONFIG`
arguments). -/
def spread_gate (c : UnifiedCandidate) : Option String :=
  let spread := assess_spread c.orderbook_snapshot none none DEFAULT_CONFIG
  if spread.verdict = .REJECT then some ("Spread reject: " ++ spread.notes)
  else none

/-- Gate 4: accounting carries a (truthy) no-trade reason. -/
def ev_gate (c : UnifiedCandidate) : Option String :=
  match c.fees_ev with
  | some f =>
    match f.no_trade_reason_if_any with
    | some reason =>
      if reason ≠ "" then some ("EV reject: " ++ reason) else none
    | none => none
  | none => none

/-- Gate 5: LOW lock-in. -/
def low_lock_in_gate (c : UnifiedCandidate) : Option String :=
  match c.model with
  | some m =>
    match m.lock_in_flag_if_low, m.p_new_lower_low_after_now with
    | some flag, some p =>
      if flag.value = "LOCKING" ∧ p < 1/20 then
        some "LOW lock-in: past sunrise+2h and P(new low) < 5%"
      else none
    | _, _ => none
  | none => none

/-- Gate 6: HIGH lock-in. -/
def high_lock_in_gate (c : UnifiedCandidate) : Option String :=
  match c.model with
  | some m =>
    match m.high_lock_in_flag, m.p_new_higher_high_after_now with
    | some flag, some p =>
      if flag.value = "LOCKING" ∧ p < 1/20 then
        some "HIGH lock-in: past peak+2h and P(new high) < 5%"
      else none
    | _, _ => none
  | none => none

/-- `apply_hard_rejects` from `team_lead.py`: the six early-return gates
in order; the first reason wins. -/
def apply_hard_rejects (c : UnifiedCandidate) : Bool × String :=
  match mapping_confidence_gate c <|> implied_ask_gate c <|> spread_gate c
      <|> ev_gate c <|> low_lock_in_gate c <|> high_lock_in_gate c with
  | some reason => (true, reason)
  | none => (false, "")

/-! ## Ranking (team_lead.py) -/

/-- `_UNCERTAINTY_RANK` from `team_lead.py`. -/
def _UNCERTAINTY_RANK : UncertaintyLevel → Nat
  | .LOW => 0
  | .MED => 1
  | .HIGH => 2

/-- `_KNIFE_EDGE_RANK` from `team_lead.py`. -/
def _KNIFE_EDGE_RANK : KnifeEdgeRisk → Nat
  | .LOW => 0
  | .MED => 1
  | .HIGH => 2

/-- `_rank_sort_key` from `team_lead.py` (lower sorts first). -/
def _rank_sort_key (c : UnifiedCandidate) : ℚ × Nat × Nat × Int × ℚ :=
  let ev : ℚ :=
    match c.fees_ev with
    | some f => f.ev_net_est_cents_at_recommended_limit
    | none => 0
  let uncertainty : Nat :=
    match c.model with
    | some m => _UNCERTAINTY_RANK m.uncertainty_level
    | none => 1
  let knife_edge : Nat :=
    match c.model with
    | some m => _KNIFE_EDGE_RANK m.knife_edge_risk
    | none => 1
  let ob := c.orderbook_snapshot
  let depth : Int :=
    (ob.top3_yes_bids.map Prod.snd).sum + (ob.top3_no_bids.map Prod.snd).sum
  let hours_vol : ℚ :=
    match c.model with
    | some m => m.hours_remaining_in_meaningful_volatility_window
    | none => 0
  (-ev, uncertainty, knife_edge, -depth, -hours_vol)

/-- Python's lexicographic tuple comparison on the sort keys. -/
def key_le (k1 k2 : ℚ × Nat × Nat × Int × ℚ) : Bool :=
  if k1.1 ≠ k2.1 then decide (k1.1 ≤ k2.1)
  else if k1.2.1 ≠ k2.2.1 then decide (k1.2.1 ≤ k2.2.1)
  else if k1.2.2.1 ≠ k2.2.2.1 then decide (k1.2.2.1 ≤ k2.2.2.1)
  else if k1.2.2.2.1 ≠ k2.2.2.2.1 then decide (k1.2.2.2.1 ≤ k2.2.2.2.1)
  else decide (k1.2.2.2.2 ≤ k2.2.2.2.2)

/-- `rank_candidates` from `team_lead.py`: stable sort by the key, then
1-based rank assignment in sorted order. -/
def rank_candidates (candidates : List UnifiedCandidate) :
    List UnifiedCandidate :=
  let sorted_cands := candidates.mergeSort
    (fun a b => key_le (_rank_sort_key a) (_rank_sort_key b))
  sorted_cands.enum.map fun p => { p.2 with rank := some (p.1 + 1) }

/-! ## The full bucket pipeline (team_lead.py, `run_bucket_pipeline`) -/

/-- The per-candidate loop of `run_bucket_pipeline`: hard-reject check,
then bucket classification, accumulating the four lists in order. -/
def partition_candidates (config : Config) :
    List UnifiedCandidate →
      List UnifiedCandidate × List UnifiedCandidate ×
        List UnifiedCandidate × List UnifiedCandidate
  | [] => ([], [], [], [])
  | candidate :: rest =>
    let acc := partition_candidates config rest
    if (apply_hard_rejects candidate).1 = true then
      (acc.1, acc.2.1, acc.2.2.1,
        { candidate with
          bucket := .REJECTED,
          bucket_reason := (apply_hard_rejects candidate).2 } :: acc.2.2.2)
    else
      let c :=
        { candidate with
          bucket := (classify_bucket candidate config).1,
          bucket_reason := (classify_bucket candidate config).2 }
      if (classify_bucket candidate config).1 = .PRIMARY then
        (c :: acc.1, acc.2.1, acc.2.2.1, acc.2.2.2)
      else if (classify_bucket candidate config).1 = .TIGHT then
        (acc.1, c :: acc.2.1, acc.2.2.1, acc.2.2.2)
      else if (classify_bucket candidate config).1 = .NEAR_MISS then
        (acc.1, acc.2.1, c :: acc.2.2.1, acc.2.2.2)
      else
        (acc.1, acc.2.1, acc.2.2.1, c :: acc.2.2.2)

/-- `run_bucket_pipeline` from `team_lead.py`: partition, rank each of
the three live buckets, enforce pick counts. -/
def run_bucket_pipeline (candidates : List UnifiedCandidate)
    (config : Config) :
    List UnifiedCandidate × List UnifiedCandidate ×
      List UnifiedCandidate × List UnifiedCandidate :=
  let parts := partition_candidates config candidates
  let primary := rank_candidates parts.1
  let tight := rank_candidates parts.2.1
  let near_miss := rank_candidates parts.2.2.1
  let capped := enforce_pick_counts primary tight near_miss config
  (capped.1, capped.2.1, capped.2.2, parts.2.2.2)

/-- A candidate that passes the hard rejects has both its implied NO ask
and its bid-room present: gate 2 rejects a missing ask and gate 3's
`assess_spread` returns REJECT on a missing bid-room. -/
theorem apply_hard_rejects_pass (c : UnifiedCandidate)
    (h : (apply_hard_rejects c).1 = false) :
    (∃ a, c.orderbook_snapshot.implied_best_no_ask_cents = some a) ∧
    (∃ r, c.orderbook_snapshot.bid_room_cents = some r) := by
  constructor
  · rcases hask : c.orderbook_snapshot.implied_best_no_ask_cents with _ | a
    · exfalso
      have ht : (apply_hard_rejects c).1 = true := by
        rcases hg1 : mapping_confidence_gate c with _ | r1
        · simp [apply_hard_rejects, hg1, implied_ask_gate, hask]
        · simp [apply_hard_rejects, hg1]
      rw [ht] at h
      simp at h
    · exact ⟨a, rfl⟩
  · rcases hroom : c.orderbook_snapshot.bid_room_cents with _ | r
    · exfalso
      have hg3 : spread_gate c =
          some ("Spread reject: Cannot compute spread — missing bid data") := by
        simp [spread_gate, assess_spread, hroom]
      have ht : (apply_hard_rejects c).1 = true := by
        rcases hg1 : mapping_confidence_gate c with _ | r1
        · rcases hg2 : implied_ask_gate c with _ | r2
          · simp [apply_hard_rejects, hg1, hg2, hg3]
          · simp [apply_hard_rejects, hg1, hg2]
        · simp [apply_hard_rejects, hg1]
      rw [ht] at h
      simp at h
    · exact ⟨r, rfl⟩

/-- Members of the three live partition lists have ask and room
present. -/
theorem partition_candidates_fields (config : Config)
    (l : List UnifiedCandidate) (c : UnifiedCandidate)
    (hc : c ∈ (partition_candidates config l).1 ∨
      c ∈ (partition_candidates config l).2.1 ∨
      c ∈ (partition_candidates config l).2.2.1) :
    (∃ a, c.orderbook_snapshot.implied_best_no_ask_cents = some a) ∧
    (∃ r, c.orderbook_snapshot.bid_room_cents = some r) := by
  induction l with
  | nil => simp [partition_candidates] at hc
  | cons cand rest ih =>
    rcases hrej : (apply_hard_rejects cand).1 with _ | _
    · have hpass := apply_hard_rejects_pass cand hrej
      rcases hbk : (classify_bucket cand config).1 with _ | _ | _ | _ <;>
        simp only [partition_candidates, hrej, hbk, Bool.false_eq_true,
          if_false, if_true, List.mem_cons, reduceCtorEq, if_neg,
          reduceIte] at hc <;>
        [rcases hc with (rfl | hc) | hc | hc;
         rcases hc with hc | (rfl | hc) | hc;
         rcases hc with hc | hc | (rfl | hc);
         skip] <;>
        first
          | exact hpass
          | exact ih (by tauto)
    · simp only [partition_candidates, hrej, if_true, List.mem_cons] at hc
      exact ih (by tauto)

/-- `rank_candidates` only permutes and re-ranks: every output candidate
shares its orderbook snapshot with an input candidate. -/
theorem rank_candidates_ob (l : List UnifiedCandidate)
    (c : UnifiedCandidate) (hc : c ∈ rank_candidates l) :
    ∃ c₀ ∈ l, c.orderbook_snapshot = c₀.orderbook_snapshot := by
  simp only [rank_candidates] at hc
  rcases List.mem_map.mp hc with ⟨⟨i, x⟩, hp, rfl⟩
  have hx : x ∈ l.mergeSort
      (fun a b => key_le (_rank_sort_key a) (_rank_sort_key b)) := by
    obtain ⟨hlt, heq⟩ :=
      List.getElem?_eq_some_iff.mp (List.mk_mem_enum_iff_getElem?.mp hp)
    exact heq ▸ List.getElem_mem hlt
  exact ⟨x, (List.mergeSort_perm l _).mem_iff.mp hx, rfl⟩

/-- C10: every candidate the full pipeline places into PRIMARY, TIGHT or
NEAR_MISS has both a present implied NO ask and a present bid-room; the
hard rejects remove all others before classification, so the
classifier's `room = 0` substitute for a missing bid-room is unreachable
from the pipeline. -/
theorem run_bucket_pipeline_fields (candidates : List UnifiedCandidate)
    (config : Config) (c : UnifiedCandidate)
    (hc : c ∈ (run_bucket_pipeline candidates config).1 ∨
      c ∈ (run_bucket_pipeline candidates config).2.1 ∨
      c ∈ (run_bucket_pipeline candidates config).2.2.1) :
    (∃ a, c.orderbook_snapshot.implied_best_no_ask_cents = some a) ∧
    (∃ r, c.orderbook_snapshot.bid_room_cents = some r) := by
  have transfer : ∀ d : UnifiedCandidate,
      (∃ c₀ ∈ (partition_candidates config candidates).1,
          d.orderbook_snapshot = c₀.orderbook_snapshot) ∨
      (∃ c₀ ∈ (partition_candidates config candidates).2.1,
          d.orderbook_snapshot = c₀.orderbook_snapshot) ∨
      (∃ c₀ ∈ (partition_candidates config candidates).2.2.1,
          d.orderbook_snapshot = c₀.orderbook_snapshot) →
      (∃ a, d.orderbook_snapshot.implied_best_no_ask_cents = some a) ∧
      (∃ r, d.orderbook_snapshot.bid_room_cents = some r) := by
    rintro d (⟨c₀, h₀, hob⟩ | ⟨c₀, h₀, hob⟩ | ⟨c₀, h₀, hob⟩) <;>
      rw [hob] <;>
      exact partition_candidates_fields config candidates c₀ (by tauto)
  simp only [run_bucket_pipeline] at hc
  rcases hc with hc | hc | hc
  · -- capped primary: a prefix of the ranked primary list
    have hmem : c ∈ rank_candidates (partition_candidates config candidates).1 := by
      revert hc
      simp only [enforce_pick_counts]
      split
      · exact fun hc => List.take_subset _ _ hc
      · exact fun hc => hc
    obtain ⟨c₀, h₀, hob⟩ := rank_candidates_ob _ c hmem
    exact transfer c (Or.inl ⟨c₀, h₀, hob⟩)
  · -- capped tight: a demoted primary candidate or a ranked tight one
    have hmem : (∃ c₁ ∈ rank_candidates (partition_candidates config candidates).1,
          c.orderbook_snapshot = c₁.orderbook_snapshot) ∨
        c ∈ rank_candidates (partition_candidates config candidates).2.1 := by
      revert hc
      simp only [enforce_pick_counts]
      split
      · intro hc
        rcases List.mem_append.mp hc with hd | ht
        · rcases List.mem_map.mp hd with ⟨c₁, hc₁, rfl⟩
          exact Or.inl ⟨c₁, List.drop_subset _ _ hc₁, rfl⟩
        · exact Or.inr ht
      · exact fun hc => Or.inr hc
    rcases hmem with ⟨c₁, hc₁, hob₁⟩ | hmem
    · obtain ⟨c₀, h₀, hob⟩ := rank_candidates_ob _ c₁ hc₁
      exact transfer c (Or.inl ⟨c₀, h₀, hob₁.trans hob⟩)
    · obtain ⟨c₀, h₀, hob⟩ := rank_candidates_ob _ c hmem
      exact transfer c (Or.inr (Or.inl ⟨c₀, h₀, hob⟩))
  · -- near-miss: unchanged by the cap
    have hmem : c ∈ rank_candidates (partition_candidates config candidates).2.2.1 := by
      revert hc
      simp only [enforce_pick_counts]
      split
      · exact fun hc => hc
      · exact fun hc => hc
    obtain ⟨c₀, h₀, hob⟩ := rank_candidates_ob _ c hmem
    exact transfer c (Or.inr (Or.inr ⟨c₀, h₀, hob⟩))

/-- Witness for C10: a one-candidate pipeline run whose candidate lands
in PRIMARY with ask and room present. -/
theorem run_bucket_pipeline_fields_witness :
    (∃ a, ({ orderbook_snapshot :=
               { implied_best_no_ask_cents := some 92,
                 bid_room_cents := some 3 },
             bucket := .PRIMARY,
             bucket_reason := "ask=92c in [90,93], room=3c >= 2",
             rank := some 1 } :
          UnifiedCandidate).orderbook_snapshot.implied_best_no_ask_cents =
        some a) ∧
    (∃ r, ({ orderbook_snapshot :=
               { implied_best_no_ask_cents := some 92,
                 bid_room_cents := some 3 },
             bucket := .PRIMARY,
             bucket_reason := "ask=92c in [90,93], room=3c >= 2",
             rank := some 1 } :
          UnifiedCandidate).orderbook_snapshot.bid_room_cents = some r) :=
  run_bucket_pipeline_fields
    [{ orderbook_snapshot :=
        { implied_best_no_ask_cents := some 92, bid_room_cents := some 3 } }]
    DEFAULT_CONFIG
    { orderbook_snapshot :=
        { implied_best_no_ask_cents := some 92, bid_room_cents := some 3 },
      bucket := .PRIMARY,
      bucket_reason := "ask=92c in [90,93], room=3c >= 2",
      rank := some 1 }
    (by
      left
      have hres : (run_bucket_pipeline
          [{ orderbook_snapshot :=
              { implied_best_no_ask_cents := some 92,
                bid_room_cents := some 3 } }] DEFAULT_CONFIG).1 =
          [{ orderbook_snapshot :=
              { implied_best_no_ask_cents := some 92,
                bid_room_cents := some 3 },
             bucket := .PRIMARY,
             bucket_reason := "ask=92c in [90,93], room=3c >= 2",
             rank := some 1 }] := by
        simp only [run_bucket_pipeline,
          show partition_candidates DEFAULT_CONFIG
              [{ orderbook_snapshot :=
                  { implied_best_no_ask_cents := some 92,
                    bid_room_cents := some 3 } }] =
            ([{ orderbook_snapshot :=
                  { implied_best_no_ask_cents := some 92,
                    bid_room_cents := some 3 },
                bucket := .PRIMARY,
                bucket_reason := "ask=92c in [90,93], room=3c >= 2" }],
              [], [], []) from rfl,
          rank_candidates, List.mergeSort_singleton, List.mergeSort_nil]
        simp [enforce_pick_counts, DEFAULT_CONFIG]
      rw [hres]
      exact List.mem_singleton_self _)

end KalshiWeather
